import Mathlib

/-!
Shallow embedding of the HackGT NFC badge reader core
(`src/nfc/ndef.rs`, `src/nfc/badge.rs`, `src/nfc.rs`).

Bytes are modelled as `Nat` (the Rust code only compares bytes against
constants and performs bit tests, so no wraparound arithmetic occurs).
Fallible Rust functions return `Except`/`Option`; Rust code that can
panic (out-of-bounds slicing) returns a `RustResult` with an explicit
`panic` outcome.  External collaborators (the pcsc transport, the `url`
crate) are passed in as function parameters.
-/

deriving instance DecidableEq for Except

namespace HackGTNFC

/-- Outcome of running a piece of Rust code that may panic. -/
inductive RustResult (α : Type) where
  | panic : RustResult α
  | ok : α → RustResult α
deriving DecidableEq, Repr

/-- `ParserState` from `ndef.rs`. -/
inductive ParserState where
  | scanNone
  | ndefInitial
  | ndefTypeLength
  | ndefPayloadLength
  | ndefRecordType
  | ndefData
deriving DecidableEq, Repr

/-- `WellKnownType` from `ndef.rs`. -/
inductive WellKnownType where
  | unknown
  | text
  | uri
deriving DecidableEq, Repr

/-- The `NDEF` struct from `ndef.rs`: a well-known type and the raw payload bytes. -/
structure NDEF where
  ndef_type : WellKnownType
  data : List Nat
deriving DecidableEq, Repr

/-- The loop of `NDEF::parse`, phrased over the remaining suffix of the
buffer: loop position `i` corresponds to the argument `buffer.drop i`, so
`buffer[i]` is the head, the lookahead `buffer[i + 2]` is `rest.getD 1`,
the guard `buffer.len() > i + 2` is `1 < rest.length`, advancing `i` by 1
consumes the head, and the `i += 2` performed by the `ParserState::None`
branches (the `i += 1` inside the branch plus the `i += 1` at the bottom
of the loop) consumes the head and one further element.  The loop exits
(returning the accumulated record) as soon as the remainder is empty. -/
def parseLoop : List Nat → ParserState → List Nat → WellKnownType → Except String NDEF
  | [], _, data, ndef_type => .ok ⟨ndef_type, data⟩
  | byte :: rest, state, data, ndef_type =>
    match state with
    | .scanNone =>
      if byte = 0x00 then
        -- NULL block: `i += 2` overall
        match rest with
        | [] => .ok ⟨ndef_type, data⟩
        | _ :: rest1 => parseLoop rest1 .scanNone data ndef_type
      else if byte = 0x03 ∧ 1 < rest.length ∧ rest.getD 1 0 = 0xD1 then
        -- NDEF message: skip the length field (`i += 2` overall)
        match rest with
        | [] => .ok ⟨ndef_type, data⟩
        | _ :: rest1 => parseLoop rest1 .ndefInitial data ndef_type
      else
        parseLoop rest .scanNone data ndef_type
    | .ndefInitial =>
      if byte &&& (1 <<< 0) ≠ 1 then
        .error "Only NFC Well Known Records are supported"
      else if byte &&& (1 <<< 4) = 0 then
        .error "Only short records supported currently"
      else if byte &&& (1 <<< 6) = 0 then
        .error "Message must be end message currently"
      else if byte &&& (1 <<< 7) = 0 then
        .error "Message must be beginning message currently"
      else
        parseLoop rest .ndefTypeLength data ndef_type
    | .ndefTypeLength =>
      parseLoop rest .ndefPayloadLength data ndef_type
    | .ndefPayloadLength =>
      -- `Vec::with_capacity(byte)` produces an empty vector; `data_index = 0`
      parseLoop rest .ndefRecordType [] ndef_type
    | .ndefRecordType =>
      parseLoop rest .ndefData data
        (if byte = 0x54 then .text else if byte = 0x55 then .uri else .unknown)
    | .ndefData =>
      if byte = 0xFE then
        -- 0xFE terminates an NDEF message
        parseLoop rest .scanNone data ndef_type
      else
        -- `data.insert(data_index, byte)` with `data_index = data.len()` appends
        parseLoop rest .ndefData (data ++ [byte]) ndef_type

/-- `NDEF::parse` from `ndef.rs`. -/
def parse (buffer : List Nat) : Except String NDEF :=
  parseLoop buffer .scanNone [] .unknown

/-- `NDEF::get_protocol` from `ndef.rs`: the fixed protocol-abbreviation table. -/
def get_protocol (identifier : Nat) : String :=
  if identifier = 0x00 then ""
  else if identifier = 0x01 then "http://www."
  else if identifier = 0x02 then "https://www."
  else if identifier = 0x03 then "http://"
  else if identifier = 0x04 then "https://"
  else if identifier = 0x05 then "tel:"
  else if identifier = 0x06 then "mailto:"
  else if identifier = 0x07 then "ftp://anonymous:anonymous@"
  else if identifier = 0x08 then "ftp://ftp."
  else if identifier = 0x09 then "ftps://"
  else if identifier = 0x0A then "sftp://"
  else if identifier = 0x0B then "smb://"
  else if identifier = 0x0C then "nfs://"
  else if identifier = 0x0D then "ftp://"
  else if identifier = 0x0E then "dav://"
  else if identifier = 0x0F then "news:"
  else if identifier = 0x10 then "telnet://"
  else if identifier = 0x11 then "imap:"
  else if identifier = 0x12 then "rtsp://"
  else if identifier = 0x13 then "urn:"
  else if identifier = 0x14 then "pop:"
  else if identifier = 0x15 then "sip:"
  else if identifier = 0x16 then "sips:"
  else if identifier = 0x17 then "tftp:"
  else if identifier = 0x18 then "btspp://"
  else if identifier = 0x19 then "btl2cap://"
  else if identifier = 0x1A then "btgoep://"
  else if identifier = 0x1B then "tcpobex://"
  else if identifier = 0x1C then "irdaobex://"
  else if identifier = 0x1D then "file://"
  else if identifier = 0x1E then "urn: epc: id:"
  else if identifier = 0x1F then "urn: epc: tag:"
  else if identifier = 0x20 then "urn: epc: pat:"
  else if identifier = 0x21 then "urn: epc: raw:"
  else if identifier = 0x22 then "urn: epc:"
  else if identifier = 0x23 then "urn: nfc:"
  else ""

/-- Is `b` a UTF-8 continuation byte (`0x80 ..= 0xBF`)? -/
def isUtf8Cont (b : Nat) : Bool :=
  0x80 ≤ b ∧ b ≤ 0xBF

/-- Models the validation and decoding performed by Rust's
`std::str::from_utf8` (strict RFC 3629 UTF-8: overlong encodings,
surrogates and code points above `U+10FFFF` are rejected). -/
def utf8Decode : List Nat → Option (List Char)
  | [] => some []
  | b :: rest =>
    if b ≤ 0x7F then
      (utf8Decode rest).map (fun cs => Char.ofNat b :: cs)
    else if 0xC2 ≤ b ∧ b ≤ 0xDF then
      match rest with
      | b2 :: rest2 =>
        if isUtf8Cont b2 then
          (utf8Decode rest2).map
            (fun cs => Char.ofNat ((b - 0xC0) * 0x40 + (b2 - 0x80)) :: cs)
        else none
      | [] => none
    else if 0xE0 ≤ b ∧ b ≤ 0xEF then
      match rest with
      | b2 :: b3 :: rest3 =>
        if (if b = 0xE0 then 0xA0 else 0x80) ≤ b2 ∧ b2 ≤ (if b = 0xED then 0x9F else 0xBF) ∧
            isUtf8Cont b3 then
          (utf8Decode rest3).map
            (fun cs => Char.ofNat ((b - 0xE0) * 0x1000 + (b2 - 0x80) * 0x40 + (b3 - 0x80)) :: cs)
        else none
      | _ => none
    else if 0xF0 ≤ b ∧ b ≤ 0xF4 then
      match rest with
      | b2 :: b3 :: b4 :: rest4 =>
        if (if b = 0xF0 then 0x90 else 0x80) ≤ b2 ∧ b2 ≤ (if b = 0xF4 then 0x8F else 0xBF) ∧
            isUtf8Cont b3 ∧ isUtf8Cont b4 then
          (utf8Decode rest4).map
            (fun cs => Char.ofNat
              ((b - 0xF0) * 0x40000 + (b2 - 0x80) * 0x1000 + (b3 - 0x80) * 0x40 + (b4 - 0x80)) :: cs)
        else none
      | _ => none
    else none

/-- `NDEF::get_uri` from `ndef.rs`. -/
def NDEF.get_uri (self : NDEF) : Option String :=
  if self.data.length < 2 ∨ self.ndef_type ≠ .uri then none
  else
    (utf8Decode (self.data.drop 1)).map
      (fun cs => get_protocol (self.data.headD 0) ++ String.mk cs)

/-- `NDEF::get_text` from `ndef.rs`.  The slice `&self.data[1 + language_code_length..]`
panics when `1 + language_code_length` exceeds `self.data.len()`. -/
def NDEF.get_text (self : NDEF) : RustResult (Option String) :=
  if self.data.length < 4 ∨ self.ndef_type ≠ .text then .ok none
  else
    let language_code_length := self.data.headD 0
    if 1 + language_code_length ≤ self.data.length then
      .ok ((utf8Decode (self.data.drop (1 + language_code_length))).map
        (fun cs => String.mk cs))
    else
      .panic

/-- `NDEF::get_content` from `ndef.rs`. -/
def NDEF.get_content (self : NDEF) : RustResult (Option String) :=
  match self.ndef_type with
  | .text => self.get_text
  | .uri => .ok self.get_uri
  | .unknown => .ok none

/-- The ASCII bytes of `"live.hack.gt?user=7dd00021-89fd-49f1-9c17-bd0ba7dcf97e"`,
the URI suffix used by the repository's own `parse_uri` unit test. -/
def sampleUriSuffix : List Nat :=
  [0x6C, 0x69, 0x76, 0x65, 0x2E, 0x68, 0x61, 0x63, 0x6B, 0x2E, 0x67, 0x74, 0x3F,
   0x75, 0x73, 0x65, 0x72, 0x3D, 0x37, 0x64, 0x64, 0x30, 0x30, 0x30, 0x32, 0x31,
   0x2D, 0x38, 0x39, 0x66, 0x64, 0x2D, 0x34, 0x39, 0x66, 0x31, 0x2D, 0x39, 0x63,
   0x31, 0x37, 0x2D, 0x62, 0x64, 0x30, 0x62, 0x61, 0x37, 0x64, 0x63, 0x66, 0x39,
   0x37, 0x65]

/-- A buffer holding one well-formed single short NDEF URI record: TLV tag
`0x03`, TLV length `0x3B`, header `0xD1`, type length `0x01`, payload length
`0x37`, record type `0x55` (URI), protocol code `0x04` (`https://`), the
suffix bytes, and the `0xFE` terminator. -/
def sampleUriBuffer : List Nat :=
  [0x03, 0x3B, 0xD1, 0x01, 0x37, 0x55, 0x04] ++ sampleUriSuffix ++ [0xFE]

/-- The scan of `NDEF::parse` never finds an NDEF TLV start in `buffer`:
no position holds `0x03` with `0xD1` two bytes later (inside bounds). -/
def noHeaderTrigger (buffer : List Nat) : Prop :=
  ∀ j, j < buffer.length →
    ¬(buffer.getD j 0 = 0x03 ∧ j + 2 < buffer.length ∧ buffer.getD (j + 2) 0 = 0xD1)

instance (buffer : List Nat) : Decidable (noHeaderTrigger buffer) := by
  unfold noHeaderTrigger
  infer_instance

/-! ### Card Session (`src/nfc/badge.rs`) -/

/-- The pcsc error values the code in `nfc.rs`/`badge.rs` distinguishes;
all remaining pcsc error codes are collapsed into `other`. -/
inductive PcscError where
  | invalidValue
  | serviceStopped
  | noService
  | noSmartcard
  | other : Nat → PcscError
deriving DecidableEq, Repr

/-- The `Error` enum from `badge.rs` (`PCSC` / `Response` / `Message`). -/
inductive BadgeError where
  | pcscErr : PcscError → BadgeError
  | response : Nat × Nat → BadgeError
  | message : String → BadgeError
deriving DecidableEq, Repr

/-- `CardResponse` from `badge.rs`: a 2-byte status trailer plus the data bytes. -/
structure CardResponse where
  status : Nat × Nat
  data : List Nat
deriving DecidableEq, Repr

/-- The response-processing part of `NFCBadge::send_data`, applied to the raw
bytes the transport returned. -/
def sendDataCore (rapdu : List Nat) : Except BadgeError CardResponse :=
  if rapdu.length < 2 then
    .error (.pcscErr .invalidValue)
  else
    let status : Nat × Nat := (rapdu.getD (rapdu.length - 2) 0, rapdu.getD (rapdu.length - 1) 0)
    let data := rapdu.take (rapdu.length - 2)
    if status.1 = 0x90 ∧ status.2 = 0x00 then
      .ok ⟨status, data⟩
    else
      .error (.response status)

/-- `NFCBadge::send_data` from `badge.rs`.  The pcsc card transmit is the
external transport, passed in as `transmit`. -/
def NFCBadge.send_data (transmit : List Nat → Except PcscError (List Nat))
    (apdu : List Nat) : Except BadgeError CardResponse :=
  match transmit apdu with
  | .error e => .error (.pcscErr e)
  | .ok rapdu => sendDataCore rapdu

/-- `START_PAGE` from `badge.rs`. -/
def START_PAGE : Nat := 0x04

/-- `END_PAGE` from `badge.rs`. -/
def END_PAGE : Nat := 0x27

/-- The pseudo-APDU built in `NFCBadge::get_user_id`. -/
def fastReadApdu : List Nat :=
  [0xFF, 0x00, 0x00, 0x00, 0x05, 0xD4, 0x42, 0x3A, START_PAGE, END_PAGE]

/-- `NFCBadge::get_user_id` from `badge.rs`.  `extractUser` models the external
`url` crate steps (`Url::parse` followed by the `query_pairs` scan for the
`user` parameter, including their "Invalid URL" / "URL did not contain user ID"
failures); `transmit` is the pcsc transport.  The slice
`&response.data[0..3]` panics when the data has fewer than 3 bytes. -/
def NFCBadge.get_user_id (extractUser : String → Except BadgeError String)
    (transmit : List Nat → Except PcscError (List Nat)) :
    RustResult (Except BadgeError String) :=
  match NFCBadge.send_data transmit fastReadApdu with
  | .error e => .ok (.error e)
  | .ok response =>
    if response.data.length < 3 then
      .panic
    else if response.data.take 3 = [0xD5, 0x43, 0x00] then
      match parse (response.data.drop 3) with
      | .error s => .ok (.error (.message s))
      | .ok message =>
        match message.get_content with
        | .panic => .panic
        | .ok none => .ok (.error (.message "NDEF message not URL"))
        | .ok (some url) => .ok (extractUser url)
    else
      .ok (.error (.message "Invalid PN532 response"))

/-! ### Reader Monitor (`src/nfc.rs`) -/

/-- One reader state report delivered by `get_status_change`, restricted to
what the debounce branch of `handle_cards` inspects: the reader name, whether
the event state intersects `PRESENT`, whether it intersects `EMPTY`, and
whether the `ctx.connect` attempt (made only on a fresh tap) would succeed. -/
structure ReaderEvent where
  name : String
  present : Bool
  empty : Bool
  connectOk : Bool
deriving DecidableEq, Repr

/-- The per-reader debounce branch of `handle_cards` (`nfc.rs` lines 77-101).
`flags` is the `readers` map (a missing entry reads as `false` via
`unwrap_or(&false)`).  Returns the updated map and the number of
`card_handler` invocations (0 or 1) made for this report. -/
def processEvent (pnp : String) (flags : String → Bool) (ev : ReaderEvent) :
    (String → Bool) × Nat :=
  if ev.name = pnp then
    (flags, 0)
  else if ev.present then
    ((fun n => if n = ev.name then true else flags n),
      if flags ev.name = false ∧ ev.connectOk = true then 1 else 0)
  else if ev.empty then
    ((fun n => if n = ev.name then false else flags n), 0)
  else
    (flags, 0)

/-- Total number of `card_handler` invocations for the reader `name` while
processing a sequence of state reports through the debounce branch. -/
def tapCount (pnp name : String) (flags : String → Bool) : List ReaderEvent → Nat
  | [] => 0
  | ev :: rest =>
    (if ev.name = name then (processEvent pnp flags ev).2 else 0) +
      tapCount pnp name (processEvent pnp flags ev).1 rest

/-- Outcome of one iteration of the `handle_cards` loop, as far as error
recovery is concerned. -/
inductive LoopOutcome where
  | fatal : String → LoopOutcome
  | restart : LoopOutcome
  | completed : List String → LoopOutcome
deriving DecidableEq, Repr

/-- The error-recovery skeleton of one `handle_cards` loop iteration
(`nfc.rs` lines 41-75): the `ctx.list_readers` call, then the
`ctx.get_status_change` call.  `establish` is the result of the
`Context::establish` call made on the recovery path (the code unwraps it
with `.expect`, so a failure there is fatal). -/
def loopIteration (establish : Except PcscError Unit)
    (listReaders : Except PcscError (List String))
    (statusChange : Except PcscError Unit) : LoopOutcome :=
  match listReaders with
  | .error .serviceStopped | .error .noService =>
    match establish with
    | .ok _ => .restart
    | .error _ => .fatal "Failed to establish context"
  | .error _ => .fatal "Failed to list readers"
  | .ok names =>
    match statusChange with
    | .error .serviceStopped | .error .noService =>
      match establish with
      | .ok _ => .restart
      | .error _ => .fatal "Failed to establish context"
    | .error _ => .fatal "Failed to get status change"
    | .ok _ => .completed names

/-! ### Lemmas about the parser loop -/

/-- In the scan state, a run of `0x00` bytes is consumed without any effect
on the accumulated record. -/
theorem parseLoop_replicate_zero : ∀ (m : Nat) (d : List Nat) (t : WellKnownType),
    parseLoop (List.replicate m 0) .scanNone d t = .ok ⟨t, d⟩
  | 0, _, _ => rfl
  | 1, _, _ => rfl
  | (m + 2), d, t => parseLoop_replicate_zero m d t

/-- Prepending an even number of `0x00` bytes leaves the parse of any buffer
unchanged: each `0x00` seen in the scan state consumes two bytes. -/
theorem parse_replicate_zero_append : ∀ (k : Nat) (B : List Nat),
    parse (List.replicate (2 * k) 0 ++ B) = parse B
  | 0, _ => rfl
  | (k + 1), B => by
    have h : List.replicate (2 * (k + 1)) 0 ++ B =
        0 :: 0 :: (List.replicate (2 * k) 0 ++ B) := by
      have h2 : 2 * (k + 1) = (2 * k) + 1 + 1 := by ring
      simp [h2, List.replicate_succ]
    rw [h]
    exact parse_replicate_zero_append k B

/-- In the data state, payload bytes free of the `0xFE` terminator are
appended one by one; the terminator returns to the scan state, and trailing
`0x00` padding is then skipped. -/
theorem parseLoop_data_run : ∀ (payload : List Nat) (m : Nat) (d : List Nat)
    (t : WellKnownType), 0xFE ∉ payload →
    parseLoop (payload ++ 0xFE :: List.replicate m 0) .ndefData d t = .ok ⟨t, d ++ payload⟩
  | [], m, d, t, _ => by
    simpa using parseLoop_replicate_zero m d t
  | (p :: ps), m, d, t, h => by
    have hp : p ≠ 0xFE := fun e => h (e ▸ List.mem_cons_self p ps)
    have ih := parseLoop_data_run ps m (d ++ [p]) t (fun e => h (List.mem_cons_of_mem _ e))
    simp only [List.cons_append, parseLoop, if_neg hp]
    simpa using ih

/-- Running the scan on a well-formed short URI record (tag `0x03`, any TLV
length byte, header `0xD1`, any type-length and payload-length bytes, record
type `0x55`, terminator-free payload, `0xFE`, trailing `0x00` padding)
yields the URI record with exactly the payload bytes. -/
theorem parseLoop_header_run (L tl pl : Nat) (payload : List Nat) (m : Nat)
    (d : List Nat) (t : WellKnownType) (h : 0xFE ∉ payload) :
    parseLoop (0x03 :: L :: 0xD1 :: tl :: pl :: 0x55 ::
        (payload ++ 0xFE :: List.replicate m 0)) .scanNone d t = .ok ⟨.uri, payload⟩ := by
  have hrun := parseLoop_data_run payload m [] .uri h
  simpa using hrun

/-- The state `ndefInitial` is only ever entered with the next byte equal to
`0xD1`, which satisfies all four header bit checks, so the parser loop
always returns `Ok`. -/
theorem parseLoop_ok : ∀ (n : Nat) (l : List Nat), l.length ≤ n →
    ∀ (s : ParserState) (d : List Nat) (t : WellKnownType),
    (s = .ndefInitial → l.getD 0 0 = 0xD1) →
    ∃ r, parseLoop l s d t = .ok r := by
  intro n
  induction n with
  | zero =>
    intro l hl s d t _
    have hnil : l = [] := List.length_eq_zero.mp (Nat.le_zero.mp hl)
    subst hnil
    exact ⟨⟨t, d⟩, rfl⟩
  | succ n ih =>
    intro l hl s d t hinv
    match l with
    | [] => exact ⟨⟨t, d⟩, rfl⟩
    | byte :: rest =>
      have hrest : rest.length ≤ n := by
        simpa using Nat.le_of_succ_le_succ (by simpa using hl)
      cases s with
      | scanNone =>
        rw [parseLoop.eq_def]
        by_cases h0 : byte = 0x00
        · simp only [if_pos h0]
          match rest with
          | [] => exact ⟨⟨t, d⟩, rfl⟩
          | b1 :: rest1 =>
            exact ih rest1 (by simp at hrest; omega) .scanNone d t (by simp)
        · simp only [if_neg h0]
          by_cases htrig : byte = 0x03 ∧ 1 < rest.length ∧ rest.getD 1 0 = 0xD1
          · simp only [if_pos htrig]
            match rest with
            | [] => exact ⟨⟨t, d⟩, rfl⟩
            | b1 :: rest1 =>
              refine ih rest1 (by simp at hrest; omega) .ndefInitial d t (fun _ => ?_)
              have := htrig.2.2
              simpa [List.getD_cons_succ, List.getD_cons_zero] using this
          · simp only [if_neg htrig]
            exact ih rest hrest .scanNone d t (by simp)
      | ndefInitial =>
        have hbyte : byte = 0xD1 := by simpa using hinv rfl
        subst hbyte
        simp only [parseLoop]
        exact ih rest hrest .ndefTypeLength d t (by simp)
      | ndefTypeLength =>
        exact ih rest hrest .ndefPayloadLength d t (by simp)
      | ndefPayloadLength =>
        exact ih rest hrest .ndefRecordType [] t (by simp)
      | ndefRecordType =>
        exact ih rest hrest .ndefData d _ (by simp)
      | ndefData =>
        simp only [parseLoop]
        by_cases hfe : byte = 0xFE
        · rw [if_pos hfe]
          exact ih rest hrest .scanNone d t (by simp)
        · rw [if_neg hfe]
          exact ih rest hrest .ndefData (d ++ [byte]) t (by simp)

/-- `noHeaderTrigger` is inherited by the tail of a buffer. -/
theorem noHeaderTrigger_tail (b : Nat) (rest : List Nat)
    (h : noHeaderTrigger (b :: rest)) : noHeaderTrigger rest := by
  intro j hj hc
  have h1 := hc.1
  have h2 := hc.2.1
  have h3 := hc.2.2
  refine h (j + 1) (by simp only [List.length_cons]; omega) ⟨?_, ?_, ?_⟩
  · simpa [List.getD_cons_succ] using h1
  · simp only [List.length_cons]; omega
  · simpa [List.getD_cons_succ] using h3

/-- When no position of the buffer holds a `0x03` tag with `0xD1` two bytes
later, the loop stays in the scan state and returns the record it was
started with. -/
theorem parseLoop_noTrigger : ∀ (n : Nat) (l : List Nat), l.length ≤ n →
    noHeaderTrigger l →
    ∀ (d : List Nat) (t : WellKnownType), parseLoop l .scanNone d t = .ok ⟨t, d⟩ := by
  intro n
  induction n with
  | zero =>
    intro l hl _ d t
    have hnil : l = [] := List.length_eq_zero.mp (Nat.le_zero.mp hl)
    subst hnil
    rfl
  | succ n ih =>
    intro l hl hno d t
    match l with
    | [] => rfl
    | byte :: rest =>
      have hrest : rest.length ≤ n := by
        simpa using Nat.le_of_succ_le_succ (by simpa using hl)
      have hnoRest : noHeaderTrigger rest := noHeaderTrigger_tail byte rest hno
      rw [parseLoop.eq_def]
      by_cases h0 : byte = 0x00
      · simp only [if_pos h0]
        match rest with
        | [] => rfl
        | b1 :: rest1 =>
          have hnoRest1 : noHeaderTrigger rest1 := noHeaderTrigger_tail b1 rest1 hnoRest
          exact ih rest1 (by simp at hrest; omega) hnoRest1 d t
      · simp only [if_neg h0]
        have htrig : ¬(byte = 0x03 ∧ 1 < rest.length ∧ rest.getD 1 0 = 0xD1) := by
          intro hc
          have hlen := hc.2.1
          refine hno 0 (by simp) ⟨?_, ?_, ?_⟩
          · simpa [List.getD_cons_zero] using hc.1
          · simp only [List.length_cons]; omega
          · simpa [List.getD_cons_succ] using hc.2.2
        simp only [if_neg htrig]
        exact ih rest hrest hnoRest d t

/-! ### Claim theorems -/

/-- C1: for the input buffer containing a well-formed single short NDEF URI
record with protocol code `0x04` and suffix
`"live.hack.gt?user=7dd00021-89fd-49f1-9c17-bd0ba7dcf97e"`, `NDEF::parse`
succeeds and `get_content()` returns `Some` of exactly the string
`"https://live.hack.gt?user=7dd00021-89fd-49f1-9c17-bd0ba7dcf97e"`. -/
theorem ndef_parse_uri_roundtrip :
    parse sampleUriBuffer = .ok ⟨.uri, 0x04 :: sampleUriSuffix⟩ ∧
    NDEF.get_content ⟨.uri, 0x04 :: sampleUriSuffix⟩ =
      .ok (some "https://live.hack.gt?user=7dd00021-89fd-49f1-9c17-bd0ba7dcf97e") := by
  constructor
  · decide
  · decide

/-- C2 counterexample: the buffer `03 03 D1 01 02 55 04 61 FE` decodes to the
URI content `"https://a"`, but prepending a single `0x00` padding byte makes
the scan skip the `0x03` TLV tag (a `0x00` consumes two bytes), so the same
record decodes to nothing; and appending the bytes `03 00 D1 00 00` after the
`0xFE` terminator re-triggers record parsing and replaces the decoded data
with an empty payload. -/
theorem ndef_padding_counterexample :
    parse [0x03, 0x03, 0xD1, 0x01, 0x02, 0x55, 0x04, 0x61, 0xFE] = .ok ⟨.uri, [0x04, 0x61]⟩ ∧
    NDEF.get_content ⟨.uri, [0x04, 0x61]⟩ = .ok (some "https://a") ∧
    parse (0x00 :: [0x03, 0x03, 0xD1, 0x01, 0x02, 0x55, 0x04, 0x61, 0xFE]) =
      .ok ⟨.unknown, []⟩ ∧
    NDEF.get_content ⟨.unknown, []⟩ = .ok none ∧
    parse ([0x03, 0x03, 0xD1, 0x01, 0x02, 0x55, 0x04, 0x61, 0xFE] ++
      [0x03, 0x00, 0xD1, 0x00, 0x00]) = .ok ⟨.uri, []⟩ ∧
    NDEF.get_content ⟨.uri, []⟩ = .ok none := by
  refine ⟨by decide, by decide, by decide, by decide, by decide, by decide⟩

/-- C2 amended: prepending an *even* number of `0x00` padding bytes leaves the
parse of any buffer unchanged (each `0x00` seen in the scan state consumes two
bytes), and for a buffer holding one well-formed single short URI record,
appending any number of `0x00` padding bytes after the `0xFE` terminator also
leaves the decoded record unchanged.  (Odd padding counts can hide the TLV
tag, and arbitrary non-`0x00` trailing bytes can re-trigger record parsing.) -/
theorem ndef_padding_amended :
    (∀ (k : Nat) (B : List Nat), parse (List.replicate (2 * k) 0 ++ B) = parse B) ∧
    (∀ (k L tl pl : Nat) (payload : List Nat) (m : Nat), 0xFE ∉ payload →
      parse (List.replicate (2 * k) 0 ++ 0x03 :: L :: 0xD1 :: tl :: pl :: 0x55 ::
        (payload ++ 0xFE :: List.replicate m 0)) = .ok ⟨.uri, payload⟩) := by
  refine ⟨parse_replicate_zero_append, ?_⟩
  intro k L tl pl payload m h
  rw [parse_replicate_zero_append]
  exact parseLoop_header_run L tl pl payload m [] .unknown h

/-- C2 amended, witness: concrete instances of both parts. -/
theorem ndef_padding_amended_witness :
    parse (List.replicate (2 * 1) 0 ++ 0x03 :: 0x09 :: 0xD1 :: 0x01 :: 0x02 :: 0x55 ::
      ([0x04, 0x61] ++ 0xFE :: List.replicate 3 0)) = .ok ⟨.uri, [0x04, 0x61]⟩ ∧
    parse (List.replicate (2 * 2) 0 ++ [0x09]) = parse [0x09] :=
  ⟨ndef_padding_amended.2 1 0x09 0x01 0x02 [0x04, 0x61] 3 (by decide),
   ndef_padding_amended.1 2 [0x09]⟩

/-- C3 counterexample: the buffer `03 03 C1 01 01 55 61 FE` contains an NDEF
record whose header byte `0xC1` clears the SR (short record) bit, yet
`NDEF::parse` returns `Ok` with the `Unknown` type and empty data instead of
an error: the scan guard only enters header validation when the header byte
is exactly `0xD1`. -/
theorem ndef_extended_record_counterexample :
    parse [0x03, 0x03, 0xC1, 0x01, 0x01, 0x55, 0x61, 0xFE] = .ok ⟨.unknown, []⟩ := by
  decide

/-- C3 amended: `NDEF::parse` never returns an error on any input.  The scan
state only moves to header validation when the byte two positions past the
`0x03` tag is exactly `0xD1`, and `0xD1` satisfies all four flag checks, so
the four error branches are unreachable; a record whose header clears SR (or
violates the TNF/ME/MB requirements) is simply never matched, and the parse
returns `Ok` (with `Unknown` type and empty data when nothing else matched). -/
theorem ndef_parse_never_errors : ∀ (buffer : List Nat), ∃ r, parse buffer = .ok r := by
  intro buffer
  exact parseLoop_ok buffer.length buffer le_rfl .scanNone [] .unknown (by simp)

/-- C7: for every input buffer in which the scan never finds a `0x03` tag
followed two bytes later by `0xD1`, `NDEF::parse` returns `Ok` with the
`Unknown` record type and empty data — a success, not an error. -/
theorem parse_no_header_ok : ∀ (buffer : List Nat), noHeaderTrigger buffer →
    parse buffer = .ok ⟨.unknown, []⟩ := by
  intro buffer h
  exact parseLoop_noTrigger buffer.length buffer le_rfl h [] .unknown

/-- C7 witness: a concrete buffer with no valid header parses to the Unknown
record with empty data. -/
theorem parse_no_header_ok_witness :
    parse [0x01, 0x02, 0x03] = .ok ⟨.unknown, []⟩ :=
  parse_no_header_ok [0x01, 0x02, 0x03] (by decide)

/-- C6 counterexample: for the URI record with protocol code `0x23` the code's
table produces the prefix `"urn: nfc:"` (with spaces, as written in
`get_protocol`), not `"urn:nfc:"` as the claim states. -/
theorem get_protocol_urn_nfc_counterexample :
    NDEF.get_content ⟨.uri, [0x23, 0x61]⟩ = .ok (some "urn: nfc:a") ∧
    "urn: nfc:a" ≠ "urn:nfc:a" := by
  refine ⟨by decide, by decide⟩

/-- C6 amended: for every URI record, `get_content` prepends the fixed
protocol prefix selected by the first payload byte — code `0x01` yields
`"http://www."`, `0x04` yields `"https://"`, `0x06` yields `"mailto:"`,
`0x23` yields `"urn: nfc:"` (the table entry is written with spaces), and
every code above `0x23` yields the empty prefix — followed by the remaining
payload bytes UTF-8 decoded; payload length below 2 or UTF-8 decode failure
yields `None`. -/
theorem uri_content_spec :
    get_protocol 0x01 = "http://www." ∧
    get_protocol 0x04 = "https://" ∧
    get_protocol 0x06 = "mailto:" ∧
    get_protocol 0x23 = "urn: nfc:" ∧
    (∀ c : Nat, 0x23 < c → get_protocol c = "") ∧
    (∀ data : List Nat, data.length < 2 → NDEF.get_content ⟨.uri, data⟩ = .ok none) ∧
    (∀ data : List Nat, utf8Decode (data.drop 1) = none →
      NDEF.get_content ⟨.uri, data⟩ = .ok none) ∧
    (∀ (data : List Nat) (cs : List Char), 2 ≤ data.length →
      utf8Decode (data.drop 1) = some cs →
      NDEF.get_content ⟨.uri, data⟩ =
        .ok (some (get_protocol (data.headD 0) ++ String.mk cs))) := by
  refine ⟨rfl, rfl, rfl, rfl, ?_, ?_, ?_, ?_⟩
  · intro c hc
    unfold get_protocol
    repeat rw [if_neg (by omega)]
  · intro data h
    simp [NDEF.get_content, NDEF.get_uri, h]
  · intro data h
    rw [List.drop_one] at h
    by_cases hl : data.length < 2
    · simp [NDEF.get_content, NDEF.get_uri, hl]
    · simp [NDEF.get_content, NDEF.get_uri, h, hl]
  · intro data cs h2 hdec
    rw [List.drop_one] at hdec
    have hl : ¬(data.length < 2) := by omega
    simp [NDEF.get_content, NDEF.get_uri, hl, hdec]

/-- C6 amended, witness: concrete instances of the quantified parts. -/
theorem uri_content_spec_witness :
    NDEF.get_content ⟨.uri, [0x04, 0x61]⟩ =
      .ok (some (get_protocol ([0x04, 0x61].headD 0) ++ String.mk ['a'])) ∧
    NDEF.get_content ⟨.uri, [0x05]⟩ = .ok none ∧
    NDEF.get_content ⟨.uri, [0x00, 0xFF]⟩ = .ok none ∧
    get_protocol 0x99 = "" :=
  ⟨uri_content_spec.2.2.2.2.2.2.2 [0x04, 0x61] ['a'] (by decide) (by decide),
   uri_content_spec.2.2.2.2.2.1 [0x05] (by decide),
   uri_content_spec.2.2.2.2.2.2.1 [0x00, 0xFF] (by decide),
   uri_content_spec.2.2.2.2.1 0x99 (by decide)⟩

/-- C10: for every Text record whose payload has length at least 4,
`get_content` panics exactly when the first payload byte (the language-code
length) exceeds `data.len() - 1` (the slice `&data[1 + n ..]` is then out of
bounds); when the first byte is within bounds it returns without panicking. -/
theorem get_text_panic_condition : ∀ (data : List Nat), 4 ≤ data.length →
    (NDEF.get_content ⟨.text, data⟩ = .panic ↔ data.length - 1 < data.headD 0) := by
  intro data h4
  have hlt : ¬(data.length < 4) := by omega
  by_cases hc : 1 + data.headD 0 ≤ data.length
  · simp [NDEF.get_content, NDEF.get_text, hlt, hc]
    omega
  · simp [NDEF.get_content, NDEF.get_text, hlt, hc]
    omega

/-- C10 witness: a Text record of length 4 whose language-code-length byte is
5 panics. -/
theorem get_text_panic_condition_witness :
    NDEF.get_content ⟨.text, [5, 0, 0, 0]⟩ = .panic :=
  (get_text_panic_condition [5, 0, 0, 0] (by decide)).mpr (by decide)

/-! ### Lemmas about two-byte trailers -/

theorem getD_append_two_left (d : List Nat) (a b x : Nat) :
    (d ++ [a, b]).getD d.length x = a := by
  induction d with
  | nil => rfl
  | cons p ps ih => simpa using ih

theorem getD_append_two_right (d : List Nat) (a b x : Nat) :
    (d ++ [a, b]).getD (d.length + 1) x = b := by
  induction d with
  | nil => rfl
  | cons p ps ih => simpa using ih

theorem take_append_two (d : List Nat) (a b : Nat) :
    (d ++ [a, b]).take d.length = d := by
  induction d with
  | nil => rfl
  | cons p ps ih => simp

/-- C4: for every command and every raw response delivered by the card
transport, `send_data` fails with the transport invalid-value error when the
response is shorter than 2 bytes; succeeds with status `0x90 0x00` and data
equal to the response minus its trailing 2 bytes when the response ends in
`0x90 0x00`; and fails with a card-status error carrying exactly the two
trailer bytes for any other 2-byte trailer. -/
theorem send_data_status_spec :
    ∀ (transmit : List Nat → Except PcscError (List Nat)) (apdu resp : List Nat),
    transmit apdu = .ok resp →
    (resp.length < 2 → NFCBadge.send_data transmit apdu = .error (.pcscErr .invalidValue)) ∧
    (∀ d : List Nat, resp = d ++ [0x90, 0x00] →
      NFCBadge.send_data transmit apdu = .ok ⟨(0x90, 0x00), d⟩) ∧
    (∀ (d : List Nat) (s1 s2 : Nat), resp = d ++ [s1, s2] → ¬(s1 = 0x90 ∧ s2 = 0x00) →
      NFCBadge.send_data transmit apdu = .error (.response (s1, s2))) := by
  intro transmit apdu resp h
  have hsd : NFCBadge.send_data transmit apdu = sendDataCore resp := by
    unfold NFCBadge.send_data
    rw [h]
  refine ⟨?_, ?_, ?_⟩
  · intro hlen
    rw [hsd]
    simp [sendDataCore, hlen]
  · intro d hd
    subst hd
    rw [hsd]
    have hlen : (d ++ [(0x90 : Nat), 0x00]).length = d.length + 2 := by simp
    have e1 : d.length + 2 - 2 = d.length := by omega
    have e2 : d.length + 2 - 1 = d.length + 1 := by omega
    unfold sendDataCore
    simp only [hlen, e1, e2, getD_append_two_left, getD_append_two_right, take_append_two]
    simp [show ¬(d.length + 2 < 2) from by omega]
  · intro d s1 s2 hd hne
    subst hd
    rw [hsd]
    have hlen : (d ++ [s1, s2]).length = d.length + 2 := by simp
    have e1 : d.length + 2 - 2 = d.length := by omega
    have e2 : d.length + 2 - 1 = d.length + 1 := by omega
    unfold sendDataCore
    simp only [hlen, e1, e2, getD_append_two_left, getD_append_two_right, take_append_two]
    simp [show ¬(d.length + 2 < 2) from by omega, hne]

/-- C4 witness: the three outcomes at concrete responses, including the
card-status error carrying `[0x6A, 0x82]`. -/
theorem send_data_status_spec_witness :
    NFCBadge.send_data (fun _ => .ok [0x07, 0x90, 0x00]) [] =
      .ok ⟨(0x90, 0x00), [0x07]⟩ ∧
    NFCBadge.send_data (fun _ => .ok [0x6A]) [] = .error (.pcscErr .invalidValue) ∧
    NFCBadge.send_data (fun _ => .ok [0x6A, 0x82]) [] = .error (.response (0x6A, 0x82)) :=
  ⟨(send_data_status_spec (fun _ => .ok [0x07, 0x90, 0x00]) [] [0x07, 0x90, 0x00] rfl).2.1
      [0x07] rfl,
   (send_data_status_spec (fun _ => .ok [0x6A]) [] [0x6A] rfl).1 (by decide),
   (send_data_status_spec (fun _ => .ok [0x6A, 0x82]) [] [0x6A, 0x82] rfl).2.2
      [] 0x6A 0x82 rfl (by decide)⟩

/-- C5: `get_user_id` transmits exactly the 10-byte command
`FF 00 00 00 05 D4 42 3A 04 27` (its result depends on the transport only
through that command), and for every successful transport response whose
first three data bytes differ from `D5 43 00` it fails with the protocol
error `"Invalid PN532 response"` rather than proceeding to decode. -/
theorem get_user_id_command_spec :
    fastReadApdu = [0xFF, 0x00, 0x00, 0x00, 0x05, 0xD4, 0x42, 0x3A, 0x04, 0x27] ∧
    (∀ (extractUser : String → Except BadgeError String)
      (t1 t2 : List Nat → Except PcscError (List Nat)),
      t1 fastReadApdu = t2 fastReadApdu →
      NFCBadge.get_user_id extractUser t1 = NFCBadge.get_user_id extractUser t2) ∧
    (∀ (extractUser : String → Except BadgeError String)
      (transmit : List Nat → Except PcscError (List Nat)) (cr : CardResponse),
      NFCBadge.send_data transmit fastReadApdu = .ok cr →
      3 ≤ cr.data.length → cr.data.take 3 ≠ [0xD5, 0x43, 0x00] →
      NFCBadge.get_user_id extractUser transmit =
        .ok (.error (.message "Invalid PN532 response"))) := by
  refine ⟨rfl, ?_, ?_⟩
  · intro extractUser t1 t2 h
    have hsd : NFCBadge.send_data t1 fastReadApdu = NFCBadge.send_data t2 fastReadApdu := by
      unfold NFCBadge.send_data
      rw [h]
    unfold NFCBadge.get_user_id
    rw [hsd]
  · intro extractUser transmit cr h h3 hne
    unfold NFCBadge.get_user_id
    rw [h]
    have hlt : ¬(cr.data.length < 3) := by omega
    simp only [hlt, if_false, if_neg hne]

/-- C5 witness: a transport returning data `00 00 00` (status `90 00`) makes
`get_user_id` fail with the PN532 protocol error. -/
theorem get_user_id_command_spec_witness :
    NFCBadge.get_user_id (fun _ => .error (.message "unused"))
      (fun _ => .ok [0x00, 0x00, 0x00, 0x90, 0x00]) =
      .ok (.error (.message "Invalid PN532 response")) :=
  get_user_id_command_spec.2.2 (fun _ => .error (.message "unused"))
    (fun _ => .ok [0x00, 0x00, 0x00, 0x90, 0x00]) ⟨(0x90, 0x00), [0x00, 0x00, 0x00]⟩
    (by decide) (by decide) (by decide)

/-! ### Lemmas about the debounce branch -/

/-- A single report produces at most one handler invocation. -/
theorem processEvent_snd_le_one (pnp : String) (flags : String → Bool) (ev : ReaderEvent) :
    (processEvent pnp flags ev).2 ≤ 1 := by
  unfold processEvent
  split_ifs <;> simp

/-- Reports for other readers do not change this reader's presence flag. -/
theorem processEvent_fst_other (pnp name : String) (flags : String → Bool)
    (ev : ReaderEvent) (h : ¬(name = ev.name)) :
    (processEvent pnp flags ev).1 name = flags name := by
  unfold processEvent
  split_ifs <;> simp [h]

/-- A present report (for a non-pseudo reader) sets the presence flag. -/
theorem processEvent_fst_present (pnp : String) (flags : String → Bool)
    (ev : ReaderEvent) (hnp : ¬(ev.name = pnp)) (hp : ev.present = true) :
    (processEvent pnp flags ev).1 ev.name = true := by
  simp [processEvent, hnp, hp]

/-- While the presence flag for `name` is set and no report for `name` is an
empty-without-present report, no tap-handler invocation occurs for `name`. -/
theorem tapCount_zero_of_flag_true (pnp name : String) (hnp : name ≠ pnp) :
    ∀ (l : List ReaderEvent) (flags : String → Bool), flags name = true →
    (∀ e ∈ l, e.name = name → (e.present = true ∨ e.empty = false)) →
    tapCount pnp name flags l = 0 := by
  intro l
  induction l with
  | nil => intro flags _ _; rfl
  | cons ev rest ih =>
    intro flags hf hl
    have hrest := fun e he => hl e (List.mem_cons_of_mem _ he)
    by_cases hev : ev.name = name
    · have hnp2 : ¬(ev.name = pnp) := by rw [hev]; exact hnp
      by_cases hp : ev.present = true
      · have h0 : (processEvent pnp flags ev).2 = 0 := by
          simp [processEvent, hnp2, hp, hev, hf, hnp]
        have hnewf : (processEvent pnp flags ev).1 name = true := by
          have := processEvent_fst_present pnp flags ev hnp2 hp
          rwa [hev] at this
        simp only [tapCount, h0, ite_self, Nat.zero_add]
        exact ih _ hnewf hrest
      · have hemp : ev.empty = false := by
          rcases hl ev (List.mem_cons_self _ _) hev with h | h
          · exact absurd h hp
          · exact h
        have hpf : ev.present = false := by
          cases hpp : ev.present
          · rfl
          · exact absurd hpp hp
        have h0 : (processEvent pnp flags ev).2 = 0 := by
          simp [processEvent, hnp2, hpf, hemp]
        have hnewf : (processEvent pnp flags ev).1 name = flags name := by
          simp [processEvent, hnp2, hpf, hemp]
        simp only [tapCount, h0, ite_self, Nat.zero_add]
        exact ih _ (by rw [hnewf]; exact hf) hrest
    · have hnewf : (processEvent pnp flags ev).1 name = flags name :=
        processEvent_fst_other pnp name flags ev (fun h => hev h.symm)
      simp only [tapCount, if_neg hev, Nat.zero_add]
      exact ih _ (by rw [hnewf]; exact hf) hrest

/-- C8: for a fixed reader name, two state reports that include "present"
with no intervening report including "empty" for that name invoke the
tap-handler callback at most once: the presence flag set by the first report
suppresses the second. -/
theorem debounce_at_most_one_tap :
    ∀ (pnp name : String) (flags : String → Bool) (e1 e2 : ReaderEvent)
      (mid : List ReaderEvent),
    name ≠ pnp → e1.name = name → e1.present = true →
    e2.name = name → e2.present = true →
    (∀ e ∈ mid, e.name = name → e.empty = false) →
    tapCount pnp name flags (e1 :: (mid ++ [e2])) ≤ 1 := by
  intro pnp name flags e1 e2 mid hnp h1n h1p h2n h2p hmid
  have hnp1 : ¬(e1.name = pnp) := by rw [h1n]; exact hnp
  have hflag : (processEvent pnp flags e1).1 name = true := by
    have := processEvent_fst_present pnp flags e1 hnp1 h1p
    rwa [h1n] at this
  have hrest : tapCount pnp name (processEvent pnp flags e1).1 (mid ++ [e2]) = 0 := by
    refine tapCount_zero_of_flag_true pnp name hnp _ _ hflag ?_
    intro e he hen
    rcases List.mem_append.mp he with hm | hm
    · exact Or.inr (hmid e hm hen)
    · have : e = e2 := by simpa using hm
      subst this
      exact Or.inl h2p
  have hfirst : (if e1.name = name then (processEvent pnp flags e1).2 else 0) ≤ 1 := by
    rw [if_pos h1n]
    exact processEvent_snd_le_one pnp flags e1
  simp only [tapCount, hrest]
  omega

/-- C8 witness: two consecutive present reports for reader `"r"` starting
from a clear flag map invoke the handler at most once. -/
theorem debounce_at_most_one_tap_witness :
    tapCount "pnp" "r" (fun _ => false)
      [⟨"r", true, false, true⟩, ⟨"r", true, false, true⟩] ≤ 1 :=
  debounce_at_most_one_tap "pnp" "r" (fun _ => false)
    ⟨"r", true, false, true⟩ ⟨"r", true, false, true⟩ []
    (by decide) rfl rfl rfl rfl (by simp)

/-- C9: a "service stopped" (or no-service) error from the reader-enumeration
step or the blocking state-change wait never terminates the monitor loop:
provided the fresh context establishment succeeds, the iteration restarts
with a new context; any other device-subsystem error at those steps is
fatal. -/
theorem service_stopped_recovery :
    ∀ (lr : Except PcscError (List String)) (sc : Except PcscError Unit),
    ((lr = .error .serviceStopped ∨ lr = .error .noService) →
      loopIteration (.ok ()) lr sc = .restart) ∧
    (∀ names, lr = .ok names → (sc = .error .serviceStopped ∨ sc = .error .noService) →
      loopIteration (.ok ()) lr sc = .restart) ∧
    (∀ e, lr = .error e → e ≠ .serviceStopped → e ≠ .noService →
      loopIteration (.ok ()) lr sc = .fatal "Failed to list readers") ∧
    (∀ names e, lr = .ok names → sc = .error e → e ≠ .serviceStopped → e ≠ .noService →
      loopIteration (.ok ()) lr sc = .fatal "Failed to get status change") := by
  intro lr sc
  refine ⟨?_, ?_, ?_, ?_⟩
  · rintro (rfl | rfl) <;> rfl
  · rintro names rfl (rfl | rfl) <;> rfl
  · rintro e rfl h1 h2
    cases e with
    | invalidValue => rfl
    | serviceStopped => exact absurd rfl h1
    | noService => exact absurd rfl h2
    | noSmartcard => rfl
    | other code => rfl
  · rintro names e rfl rfl h1 h2
    cases e with
    | invalidValue => rfl
    | serviceStopped => exact absurd rfl h1
    | noService => exact absurd rfl h2
    | noSmartcard => rfl
    | other code => rfl

/-- C9 witness: concrete outcomes for the recovered and the fatal errors. -/
theorem service_stopped_recovery_witness :
    loopIteration (.ok ()) (.error .serviceStopped) (.ok ()) = .restart ∧
    loopIteration (.ok ()) (.ok []) (.error .noService) = .restart ∧
    loopIteration (.ok ()) (.error .invalidValue) (.ok ()) =
      .fatal "Failed to list readers" ∧
    loopIteration (.ok ()) (.ok []) (.error .invalidValue) =
      .fatal "Failed to get status change" :=
  ⟨(service_stopped_recovery (.error .serviceStopped) (.ok ())).1 (Or.inl rfl),
   (service_stopped_recovery (.ok []) (.error .noService)).2.1 [] rfl (Or.inr rfl),
   (service_stopped_recovery (.error .invalidValue) (.ok ())).2.2.1 .invalidValue rfl
     (by decide) (by decide),
   (service_stopped_recovery (.ok []) (.error .invalidValue)).2.2.2 [] .invalidValue rfl rfl
     (by decide) (by decide)⟩

end HackGTNFC
